import Mathlib

/-!
# RAG-Lab Evaluation & Metrics Core — verification development

Shallow embedding of the evaluation core of the RAG-Lab repository:

* `src/core/metrics/retrieval.ts` — relevance judging and IR metrics,
* `src/core/llm-judge.ts` — LLM judge score parsing, error degradation and
  generation-metric aggregation,
* `src/core/structured-query.ts` — filter sanitization,
* `src/integrations/text-chroma-direct.ts` — subprocess retrieval client,
* `src/core/evaluator.ts` — the evaluation orchestrator,
* `src/api/evaluation.ts` — the run/cancel API state machine.

Modelling conventions:

* JavaScript numbers are modelled as `ℚ` (the float values occurring here are
  small quotients and averages; rounding is not modelled).  `NaN` is modelled
  by `Option ℚ` (`none` = NaN) at the one place it can arise (score parsing).
* Strings are Lean `String`s; `toLowerCase` is modelled by ASCII
  `Char.toLower`, `\s` by the six ASCII whitespace characters.
* External I/O (HTTP calls, subprocesses, the LLM service, the clock) is
  modelled by oracle parameters carrying the outcome of each call.
* The `1 / log2(i + 2)` NDCG position discount is transcendental, hence not a
  computable `ℚ`.  `dcgAtK` therefore takes the discount sequence `w : ℕ → ℚ`
  as a parameter; the code instantiates it with `1 / log2(i + 2)`, which is
  positive for every `i`, and the NDCG theorems below assume only positivity.
-/

namespace RagLab

/-! ## Text normalization (`src/core/metrics/retrieval.ts`, `normalizeText`) -/

/-- ASCII whitespace, modelling the JS regex class `\s`. -/
def isWsChar (c : Char) : Bool :=
  c = ' ' || c = '\t' || c = '\n' || c = '\r' || c = '\x0b' || c = '\x0c'

/-- `String.prototype.trim`: drop leading and trailing whitespace. -/
def trimChars (l : List Char) : List Char :=
  ((l.dropWhile isWsChar).reverse.dropWhile isWsChar).reverse

/-- Helper for `collapseWs`: the flag records whether the previous character
was whitespace (in which case this run already emitted its space). -/
def collapseWsAux : Bool → List Char → List Char
  | _, [] => []
  | prevWs, c :: rest =>
    if isWsChar c then
      if prevWs then collapseWsAux true rest
      else ' ' :: collapseWsAux true rest
    else c :: collapseWsAux false rest

/-- `.replace(/\s+/g, ' ')`: collapse every whitespace run to one space. -/
def collapseWs (l : List Char) : List Char :=
  collapseWsAux false l

/-- `normalizeText`: `text.toLowerCase().trim().replace(/\s+/g, ' ')`. -/
def normalizeText (s : String) : List Char :=
  collapseWs (trimChars (s.data.map Char.toLower))

/-- `Math.max` on two rationals (NaN does not arise at its call sites).
Written with `if` so that concrete instances reduce in the kernel. -/
def jsMax (a b : ℚ) : ℚ := if a ≤ b then b else a

theorem jsMax_eq_max (a b : ℚ) : jsMax a b = max a b := by
  rw [jsMax, max_def]

/-- `str.split(' ')` with JS semantics (keeps empty pieces). -/
def splitOnSpace : List Char → List (List Char)
  | [] => [[]]
  | c :: rest =>
    match splitOnSpace rest with
    | [] => [[c]]
    | w :: ws => if c = ' ' then [] :: w :: ws else (c :: w) :: ws

/-! ## Data model (`src/types`, `modules/index.ts`) -/

/-- `RetrievedDocument` (fields used by the evaluation core). -/
structure RetrievedDocument where
  content : String
  score : Option ℚ := none
  rank : ℕ
deriving DecidableEq, Repr

/-- `GroundTruth`; the optional array fields default to `[]` (the code treats
`undefined` and `[]` identically: both skip the corresponding loop). -/
structure GroundTruth where
  expectedKeywords : List String
  relevantChunks : List String := []
  referenceAnswer : Option String := none
  expectedImages : List String := []
  excludedKeywords : List String := []
deriving DecidableEq, Repr

/-- `RelevanceJudgment`. -/
structure RelevanceJudgment where
  documentIndex : ℕ
  isRelevant : Bool
  relevanceScore : ℚ
  matchedKeywords : List String
deriving DecidableEq, Repr

instance : Inhabited RelevanceJudgment := ⟨⟨0, false, 0, []⟩⟩

/-! ## Relevance judging (`src/core/metrics/retrieval.ts`) -/

/-- `calculateKeywordMatches`: keywords whose lowercased, trimmed text occurs
as a substring of the normalized document content.  Returns the matched
keywords (in input order, original spelling); `matchCount` is its length. -/
def calculateKeywordMatches (documentContent : String)
    (expectedKeywords : List String) : List String :=
  let normalizedDoc := normalizeText documentContent
  expectedKeywords.filter fun keyword =>
    decide (trimChars (keyword.data.map Char.toLower) <:+: normalizedDoc)

/-- The chunk-overlap test inside `judgeRelevance`: at least 50% of the
chunk's distinct words appear in the document's word set. -/
def chunkOverlapMatch (normalizedContent : List Char) (chunk : String) : Bool :=
  let normalizedChunk := normalizeText chunk
  let chunkWords := (splitOnSpace normalizedChunk).dedup
  let docWords := splitOnSpace normalizedContent
  let overlap := (chunkWords.filter fun w => decide (w ∈ docWords)).length
  decide ((overlap : ℚ) / (chunkWords.length : ℚ) ≥ 1/2)

/-- `judgeRelevance(document, groundTruth, index)`. -/
def judgeRelevance (document : RetrievedDocument) (groundTruth : GroundTruth)
    (index : ℕ) : RelevanceJudgment :=
  let content := document.content
  let normalizedContent := normalizeText content
  -- excluded-keyword short-circuit (`excluded.toLowerCase()`, no trim)
  if groundTruth.excludedKeywords.any
      (fun excluded => decide (excluded.data.map Char.toLower <:+: normalizedContent)) then
    { documentIndex := index, isRelevant := false, relevanceScore := 0,
      matchedKeywords := [] }
  else
    let matchedKeywords := calculateKeywordMatches content groundTruth.expectedKeywords
    let matchCount := matchedKeywords.length
    let keywordScore : ℚ :=
      if groundTruth.expectedKeywords.length > 0 then
        (matchCount : ℚ) / (groundTruth.expectedKeywords.length : ℚ)
      else 0
    let chunkMatch := groundTruth.relevantChunks.any (chunkOverlapMatch normalizedContent)
    let relevanceThreshold : ℚ :=
      jsMax 1 ((groundTruth.expectedKeywords.length : ℚ) * (1/5))
    let isRelevant := decide ((matchCount : ℚ) ≥ relevanceThreshold) || chunkMatch
    let relevanceScore : ℚ :=
      if chunkMatch then jsMax keywordScore (4/5) else keywordScore
    { documentIndex := index, isRelevant := isRelevant,
      relevanceScore := relevanceScore, matchedKeywords := matchedKeywords }

/-! ## Retrieval metrics (`src/core/metrics/retrieval.ts`) -/

/-- `precisionAtK`. -/
def precisionAtK (judgments : List RelevanceJudgment) (k : ℕ) : ℚ :=
  if k = 0 then 0
  else (((judgments.take k).filter (·.isRelevant)).length : ℚ) / (k : ℚ)

/-- `recallAtK`: distinct expected keywords found in the concatenated top-K
content, over the number of expected keywords. -/
def recallAtK (documents : List RetrievedDocument) (groundTruth : GroundTruth)
    (k : ℕ) : ℚ :=
  if groundTruth.expectedKeywords.length = 0 then 0
  else
    let combinedContent := String.intercalate " " ((documents.take k).map (·.content))
    ((calculateKeywordMatches combinedContent groundTruth.expectedKeywords).length : ℚ) /
      (groundTruth.expectedKeywords.length : ℚ)

/-- `hitRateAtK`. -/
def hitRateAtK (judgments : List RelevanceJudgment) (k : ℕ) : Bool :=
  (judgments.take k).any (·.isRelevant)

/-- `meanReciprocalRank`: `1/(rank+1)` of the first relevant judgment. -/
def meanReciprocalRank (judgments : List RelevanceJudgment) : ℚ :=
  match judgments.findIdx? (·.isRelevant) with
  | some i => 1 / ((i : ℚ) + 1)
  | none => 0

/-- `dcgAtK`, with the position discount `w` standing for
`fun i => 1 / log2(i + 2)` (see the header comment). -/
def dcgAtK (w : ℕ → ℚ) (judgments : List RelevanceJudgment) (k : ℕ) : ℚ :=
  ∑ i ∈ Finset.range (min k judgments.length),
    (judgments.getD i default).relevanceScore * w i

/-- The comparator of `idealDcgAtK`'s sort:
`(a, b) => b.relevanceScore - a.relevanceScore` (descending by score). -/
def scoreDescLe (a b : RelevanceJudgment) : Bool :=
  decide (b.relevanceScore ≤ a.relevanceScore)

/-- `idealDcgAtK`: DCG of the judgments re-sorted by score descending. -/
def idealDcgAtK (w : ℕ → ℚ) (judgments : List RelevanceJudgment) (k : ℕ) : ℚ :=
  dcgAtK w (judgments.mergeSort scoreDescLe) k

/-- `ndcgAtK = DCG/IDCG`, `0` when `IDCG = 0`. -/
def ndcgAtK (w : ℕ → ℚ) (judgments : List RelevanceJudgment) (k : ℕ) : ℚ :=
  let dcg := dcgAtK w judgments k
  let idcg := idealDcgAtK w judgments k
  if idcg = 0 then 0 else dcg / idcg

/-- `f1AtK(precision, recall)` (`recall` is a Mathlib keyword, hence the
parameter names). -/
def f1AtK (precisionValue recallValue : ℚ) : ℚ :=
  if precisionValue + recallValue = 0 then 0
  else 2 * precisionValue * recallValue / (precisionValue + recallValue)

/-- `RetrievalMetrics`. -/
structure RetrievalMetrics where
  precisionAtK : ℚ
  recallAtK : ℚ
  hitRateAtK : Bool
  mrr : ℚ
  ndcg : ℚ
  f1AtK : ℚ
  k : ℕ
  documentsRetrieved : ℕ
deriving DecidableEq, Repr

/-- `calculateRetrievalMetrics`. -/
def calculateRetrievalMetrics (w : ℕ → ℚ) (documents : List RetrievedDocument)
    (groundTruth : GroundTruth) (k : ℕ) : RetrievalMetrics :=
  let judgments := documents.mapIdx fun index doc => judgeRelevance doc groundTruth index
  let p := precisionAtK judgments k
  let r := recallAtK documents groundTruth k
  { precisionAtK := p
    recallAtK := r
    hitRateAtK := hitRateAtK judgments k
    mrr := meanReciprocalRank judgments
    ndcg := ndcgAtK w judgments k
    f1AtK := f1AtK p r
    k := k
    documentsRetrieved := documents.length }

/-! ## Basic facts about the relevance judge -/

theorem splitOnSpace_ne_nil (l : List Char) : splitOnSpace l ≠ [] := by
  cases l with
  | nil => simp [splitOnSpace]
  | cons c rest =>
    simp only [splitOnSpace]
    rcases h : splitOnSpace rest with _ | ⟨w, ws⟩
    · simp
    · split
      · simp
      · split <;> simp

/-- The rational comparison in `chunkOverlapMatch` is the 50%-of-distinct-words
condition stated over naturals. -/
theorem chunkOverlapMatch_iff (normalizedContent : List Char) (chunk : String) :
    chunkOverlapMatch normalizedContent chunk = true ↔
      (splitOnSpace (normalizeText chunk)).dedup.length ≤
        2 * ((splitOnSpace (normalizeText chunk)).dedup.filter
              (fun w => decide (w ∈ splitOnSpace normalizedContent))).length := by
  unfold chunkOverlapMatch
  simp only [decide_eq_true_eq]
  set s := (splitOnSpace (normalizeText chunk)).dedup with hs
  have hpos : 0 < s.length := by
    rw [hs]
    refine List.length_pos.mpr ?_
    simpa [List.dedup_eq_nil] using splitOnSpace_ne_nil (normalizeText chunk)
  set o := (s.filter fun w => decide (w ∈ splitOnSpace normalizedContent)).length with ho
  have hposQ : (0 : ℚ) < (s.length : ℚ) := by exact_mod_cast hpos
  rw [ge_iff_le, le_div_iff₀ hposQ]
  constructor
  · intro h
    have h2 : (s.length : ℚ) ≤ 2 * (o : ℚ) := by linarith
    exact_mod_cast h2
  · intro h
    have h2 : (s.length : ℚ) ≤ 2 * (o : ℚ) := by exact_mod_cast h
    linarith

/-! ## Spec-side statement of the relevance decision (claims C4, C5)

The following `spec…` definitions follow the wording of the specification
(§4.1): they are to be compared against `judgeRelevance` above, which is
translated from the source. -/

/-- Spec wording: a document is "excluded" when any `excludedKeywords` entry
appears (lowercased) in the normalized document text. -/
def specExcludedHit (document : RetrievedDocument) (gt : GroundTruth) : Prop :=
  ∃ ex ∈ gt.excludedKeywords,
    ex.data.map Char.toLower <:+: normalizeText document.content

instance (document : RetrievedDocument) (gt : GroundTruth) :
    Decidable (specExcludedHit document gt) := by
  unfold specExcludedHit
  infer_instance

/-- Spec wording: the judge's keyword match count. -/
def specMatchCount (document : RetrievedDocument) (gt : GroundTruth) : ℕ :=
  (calculateKeywordMatches document.content gt.expectedKeywords).length

/-- Spec wording: "chunkMatch holds iff some `relevantChunks` entry has ≥50%
of its distinct words in the document's word set". -/
def specChunkMatch (document : RetrievedDocument) (gt : GroundTruth) : Prop :=
  ∃ chunk ∈ gt.relevantChunks,
    (splitOnSpace (normalizeText chunk)).dedup.length ≤
      2 * ((splitOnSpace (normalizeText chunk)).dedup.filter
            (fun w => decide (w ∈ splitOnSpace (normalizeText document.content)))).length

instance (document : RetrievedDocument) (gt : GroundTruth) :
    Decidable (specChunkMatch document gt) := by
  unfold specChunkMatch
  infer_instance

/-- Spec wording: "isRelevant = (matchCount ≥ max(1, 0.2 · |expectedKeywords|))
OR chunkMatch". -/
def specIsRelevant (document : RetrievedDocument) (gt : GroundTruth) : Prop :=
  (specMatchCount document gt : ℚ) ≥ max 1 ((1/5) * (gt.expectedKeywords.length : ℚ)) ∨
    specChunkMatch document gt

/-- Spec wording: "keyword matches divided by max(1, |expectedKeywords|)". -/
def specKeywordScore (document : RetrievedDocument) (gt : GroundTruth) : ℚ :=
  (specMatchCount document gt : ℚ) / max 1 (gt.expectedKeywords.length : ℚ)

/-- Spec wording: "max(keywordScore, 0.8) when chunk-matched, else
keywordScore". -/
def specRelevanceScore (document : RetrievedDocument) (gt : GroundTruth) : ℚ :=
  if specChunkMatch document gt then max (specKeywordScore document gt) (4/5)
  else specKeywordScore document gt

/-- The Bool chunk-match computed by `judgeRelevance` agrees with the
spec-side predicate. -/
theorem chunkMatch_any_iff (document : RetrievedDocument) (gt : GroundTruth) :
    gt.relevantChunks.any (chunkOverlapMatch (normalizeText document.content)) = true ↔
      specChunkMatch document gt := by
  rw [List.any_eq_true, specChunkMatch]
  exact exists_congr fun chunk =>
    and_congr_right fun _ => chunkOverlapMatch_iff (normalizeText document.content) chunk

/-- The judge's keyword score equals the spec-side keyword score (they differ
syntactically on empty keyword lists, where both are `0`). -/
theorem keywordScore_eq_spec (document : RetrievedDocument) (gt : GroundTruth) :
    (if gt.expectedKeywords.length > 0 then
        (specMatchCount document gt : ℚ) / (gt.expectedKeywords.length : ℚ)
      else 0) = specKeywordScore document gt := by
  rw [specKeywordScore]
  rcases Nat.eq_zero_or_pos gt.expectedKeywords.length with h | h
  · have hmc : specMatchCount document gt = 0 := by
      rw [specMatchCount, calculateKeywordMatches]
      simp [List.length_eq_zero.mp h]
    simp [h, hmc]
  · have h1 : (1 : ℚ) ≤ (gt.expectedKeywords.length : ℚ) := by exact_mod_cast h
    simp [h, max_eq_right h1]

/-- With no excluded-keyword hit, `judgeRelevance` takes its main branch;
this spells out the record it returns. -/
theorem judgeRelevance_of_not_excluded (document : RetrievedDocument)
    (gt : GroundTruth) (index : ℕ) (hex : ¬ specExcludedHit document gt) :
    judgeRelevance document gt index =
      { documentIndex := index
        isRelevant :=
          decide ((specMatchCount document gt : ℚ) ≥
              jsMax 1 ((gt.expectedKeywords.length : ℚ) * (1/5))) ||
            gt.relevantChunks.any (chunkOverlapMatch (normalizeText document.content))
        relevanceScore :=
          (if gt.relevantChunks.any (chunkOverlapMatch (normalizeText document.content)) then
            jsMax (if gt.expectedKeywords.length > 0 then
                (specMatchCount document gt : ℚ) / (gt.expectedKeywords.length : ℚ)
              else 0) (4/5)
          else if gt.expectedKeywords.length > 0 then
            (specMatchCount document gt : ℚ) / (gt.expectedKeywords.length : ℚ)
          else 0)
        matchedKeywords := calculateKeywordMatches document.content gt.expectedKeywords } := by
  have hany : gt.excludedKeywords.any
      (fun excluded =>
        decide (excluded.data.map Char.toLower <:+: normalizeText document.content)) = false := by
    rw [List.any_eq_false]
    intro ex hmem
    simp only [decide_eq_true_eq]
    exact fun hinf => hex ⟨ex, hmem, hinf⟩
  rw [judgeRelevance]
  simp only [hany, Bool.false_eq_true, if_false, specMatchCount]

/-- C4: for every document and ground truth with no excluded-keyword hit,
`judgeRelevance` returns `isRelevant = (matchCount ≥ max(1, 0.2·|expectedKeywords|))
OR chunkMatch` — where chunkMatch holds iff some `relevantChunks` entry has
≥50% of its distinct words in the document's word set — and the continuous
`relevanceScore` equals `max(keywordScore, 0.8)` when chunk-matched, else
`keywordScore = matchCount / max(1, |expectedKeywords|)`. -/
theorem judgeRelevance_matches_spec (document : RetrievedDocument)
    (gt : GroundTruth) (index : ℕ) (hex : ¬ specExcludedHit document gt) :
    ((judgeRelevance document gt index).isRelevant = true ↔
      specIsRelevant document gt) ∧
    (judgeRelevance document gt index).relevanceScore =
      specRelevanceScore document gt := by
  rw [judgeRelevance_of_not_excluded document gt index hex]
  constructor
  · simp only [Bool.or_eq_true, decide_eq_true_eq, chunkMatch_any_iff, specIsRelevant]
    rw [jsMax_eq_max, mul_comm]
  · by_cases hc : specChunkMatch document gt
    · have hb := (chunkMatch_any_iff document gt).mpr hc
      rw [specRelevanceScore]
      simp only [hb, if_true, hc, keywordScore_eq_spec, jsMax_eq_max]
    · have hb : gt.relevantChunks.any
          (chunkOverlapMatch (normalizeText document.content)) = false :=
        Bool.eq_false_iff.mpr fun h => hc ((chunkMatch_any_iff document gt).mp h)
      rw [specRelevanceScore]
      simp only [hb, hc, Bool.false_eq_true, if_false, keywordScore_eq_spec]

unseal Rat.mul Rat.inv Rat.add Rat.sub in
/-- Witness for C4 at the specification's own §8 scenario (keywords
`motor`, `gear` against a drivetrain sentence). -/
theorem judgeRelevance_matches_spec_witness :
    ¬ specExcludedHit ⟨"the drivetrain uses a motor and a gear ratio", none, 0⟩
        ⟨["motor", "gear"], ["gear ratio"], none, [], []⟩ ∧
    (((judgeRelevance ⟨"the drivetrain uses a motor and a gear ratio", none, 0⟩
          ⟨["motor", "gear"], ["gear ratio"], none, [], []⟩ 0).isRelevant = true ↔
        specIsRelevant ⟨"the drivetrain uses a motor and a gear ratio", none, 0⟩
          ⟨["motor", "gear"], ["gear ratio"], none, [], []⟩) ∧
      (judgeRelevance ⟨"the drivetrain uses a motor and a gear ratio", none, 0⟩
            ⟨["motor", "gear"], ["gear ratio"], none, [], []⟩ 0).relevanceScore =
        specRelevanceScore ⟨"the drivetrain uses a motor and a gear ratio", none, 0⟩
          ⟨["motor", "gear"], ["gear ratio"], none, [], []⟩) :=
  ⟨by decide, judgeRelevance_matches_spec _ _ 0 (by decide)⟩

/-- C5: a document containing any excluded keyword (lowercased, compared
against the normalized content) is short-circuited to
`isRelevant = false, relevanceScore = 0, matchedKeywords = []`, regardless of
keyword or chunk overlap. -/
theorem judgeRelevance_excluded_shortCircuit (document : RetrievedDocument)
    (gt : GroundTruth) (index : ℕ) (hex : specExcludedHit document gt) :
    judgeRelevance document gt index =
      { documentIndex := index, isRelevant := false, relevanceScore := 0,
        matchedKeywords := [] } := by
  obtain ⟨ex, hmem, hinf⟩ := hex
  have hany : gt.excludedKeywords.any
      (fun excluded =>
        decide (excluded.data.map Char.toLower <:+: normalizeText document.content)) = true :=
    List.any_eq_true.mpr ⟨ex, hmem, decide_eq_true hinf⟩
  rw [judgeRelevance]
  simp only [hany, if_true]

unseal Rat.mul Rat.inv Rat.add Rat.sub in
/-- Witness for C5: the document matches both expected keywords and the whole
relevant chunk, yet the excluded keyword `assembly` forces a zero judgment. -/
theorem judgeRelevance_excluded_shortCircuit_witness :
    specExcludedHit ⟨"the motor gear assembly", none, 0⟩
        ⟨["motor", "gear"], ["motor gear assembly"], none, [], ["Assembly"]⟩ ∧
    judgeRelevance ⟨"the motor gear assembly", none, 0⟩
        ⟨["motor", "gear"], ["motor gear assembly"], none, [], ["Assembly"]⟩ 3 =
      { documentIndex := 3, isRelevant := false, relevanceScore := 0,
        matchedKeywords := [] } :=
  ⟨by decide, judgeRelevance_excluded_shortCircuit _ _ 3 (by decide)⟩

/-! ## NDCG (claim C3) -/

/-- A concrete positive discount sequence, used to instantiate the
`w`-parametric NDCG statements (the code's `1 / log2(i+2)` is likewise
positive at every position). -/
def unitWeight : ℕ → ℚ := fun _ => 1

/-- Claim C3 as stated: for every (positive) discount, every judgment list
sorted by `relevanceScore` descending and containing at least one relevant
document, and every depth `k`, the NDCG is `1`. -/
def ClaimC3 : Prop :=
  ∀ (w : ℕ → ℚ) (judgments : List RelevanceJudgment) (k : ℕ),
    (∀ i, 0 < w i) →
    judgments.Pairwise (fun a b => b.relevanceScore ≤ a.relevanceScore) →
    (∃ j ∈ judgments, j.isRelevant = true) →
    ndcgAtK w judgments k = 1

unseal Rat.mul Rat.inv Rat.add Rat.sub List.merge List.mergeSort in
/-- C3 counterexample: the claim fails (a) for a sorted list whose only
relevant judgment has `relevanceScore = 0` (then `IDCG = 0` and NDCG is `0`),
(b) at depth `k = 0` even with a positive score, and (c) when a negative
score cancels the positive one in the DCG sum. -/
theorem ndcg_sorted_claim_counterexample :
    ¬ ClaimC3 ∧
    ndcgAtK unitWeight [⟨0, true, 1, []⟩] 0 = 0 ∧
    ndcgAtK unitWeight [⟨0, true, 1, []⟩, ⟨1, false, -1, []⟩] 2 = 0 := by
  refine ⟨fun h => ?_, by decide, by decide⟩
  have h0 := h unitWeight [⟨0, true, 0, []⟩] 5 (fun _ => one_pos)
    (by simp) ⟨⟨0, true, 0, []⟩, by simp, rfl⟩
  have h1 : ndcgAtK unitWeight [⟨0, true, 0, []⟩] 5 = 0 := by decide
  rw [h0] at h1
  exact one_ne_zero h1

/-- C3 amended: with a positive discount, a judgment list sorted by
`relevanceScore` descending whose scores are nonnegative (as `judgeRelevance`
guarantees) with at least one positive score, and depth `k ≥ 1`, the NDCG
is exactly `1`. -/
theorem ndcg_sorted_eq_one (w : ℕ → ℚ) (judgments : List RelevanceJudgment)
    (k : ℕ) (hw : ∀ i, 0 < w i)
    (hsorted : judgments.Pairwise (fun a b => b.relevanceScore ≤ a.relevanceScore))
    (hnonneg : ∀ j ∈ judgments, 0 ≤ j.relevanceScore)
    (hpos : ∃ j ∈ judgments, 0 < j.relevanceScore)
    (hk : 1 ≤ k) :
    ndcgAtK w judgments k = 1 := by
  have hsortedB : judgments.Pairwise fun a b => scoreDescLe a b = true :=
    hsorted.imp fun h => decide_eq_true h
  have hms : judgments.mergeSort scoreDescLe = judgments :=
    List.mergeSort_of_sorted hsortedB
  have hlen : 0 < judgments.length := by
    obtain ⟨j, hj, _⟩ := hpos
    exact List.length_pos.mpr (List.ne_nil_of_mem hj)
  have hmin : 0 < min k judgments.length := lt_min hk hlen
  have hd : 0 < dcgAtK w judgments k := by
    rw [dcgAtK]
    refine Finset.sum_pos' (fun i hi => ?_) ⟨0, Finset.mem_range.mpr hmin, ?_⟩
    · have hilen : i < judgments.length :=
        lt_of_lt_of_le (Finset.mem_range.mp hi) (min_le_right _ _)
      rw [List.getD_eq_getElem _ _ hilen]
      exact mul_nonneg (hnonneg _ (List.getElem_mem hilen)) (hw i).le
    · have h0len : 0 < judgments.length := hlen
      rw [List.getD_eq_getElem _ _ h0len]
      refine mul_pos ?_ (hw 0)
      obtain ⟨x, hx, hxpos⟩ := hpos
      obtain ⟨ix, hix⟩ := List.mem_iff_get.mp hx
      rcases Nat.eq_zero_or_pos ix.1 with h0 | hixpos
      · have : judgments.get ix = judgments[0] := by
          congr 1
          exact Fin.ext h0
        rw [← this] at *
        rw [hix]
        exact hxpos
      · have hrel := (List.pairwise_iff_get.mp hsorted) ⟨0, h0len⟩ ix hixpos
        calc (0 : ℚ) < x.relevanceScore := hxpos
          _ = (judgments.get ix).relevanceScore := by rw [hix]
          _ ≤ (judgments.get ⟨0, h0len⟩).relevanceScore := hrel
          _ = judgments[0].relevanceScore := rfl
  rw [ndcgAtK, idealDcgAtK, hms]
  simp only [if_neg (ne_of_gt hd)]
  exact div_self (ne_of_gt hd)

unseal Rat.mul Rat.inv Rat.add Rat.sub List.merge List.mergeSort in
/-- Witness for the amended C3 on a concrete sorted judgment list. -/
theorem ndcg_sorted_eq_one_witness :
    ([⟨0, true, 1, []⟩, ⟨1, false, 1/2, []⟩] : List RelevanceJudgment).Pairwise
        (fun a b => b.relevanceScore ≤ a.relevanceScore) ∧
    (∃ j ∈ ([⟨0, true, 1, []⟩, ⟨1, false, 1/2, []⟩] : List RelevanceJudgment),
        0 < j.relevanceScore) ∧
    ndcgAtK unitWeight [⟨0, true, 1, []⟩, ⟨1, false, 1/2, []⟩] 2 = 1 :=
  ⟨by decide, by decide,
    ndcg_sorted_eq_one unitWeight _ 2 (fun _ => one_pos) (by decide) (by decide)
      (by decide) (by decide)⟩

/-! ## LLM judge score parsing (`src/core/llm-judge.ts`, `parseJudgment`)

The four regex patterns tried in order are
`/score[:\s]*([0-9.]+)/i`, `/([0-9.]+)\s*\/\s*10/i`, `/([0-9.]+)\s*\/\s*1/i`
and `/^([0-9.]+)/m`.  Each is modelled by a leftmost scan of the match
positions; greedy `[0-9.]+` needs no backtracking because no digit or dot can
also satisfy the character that must follow the capture. -/

/-- `Math.min` on two rationals, kernel-reducing. -/
def jsMin (a b : ℚ) : ℚ := if a ≤ b then a else b

/-- `Math.max(0, Math.min(1, x))`. -/
def clamp01 (x : ℚ) : ℚ := jsMax 0 (jsMin 1 x)

/-- The regex character class `[0-9.]`. -/
def isDigitDot (c : Char) : Bool := c.isDigit || c = '.'

/-- The regex character class `[:\s]`. -/
def isScoreSep (c : Char) : Bool := c = ':' || isWsChar c

/-- Generic JS `str.split(sep)` (keeps empty pieces). -/
def splitOnChar (sep : Char) : List Char → List (List Char)
  | [] => [[]]
  | c :: rest =>
    match splitOnChar sep rest with
    | [] => [[c]]
    | w :: ws => if c = sep then [] :: w :: ws else (c :: w) :: ws

/-- Try a position-wise matcher at every position, left to right
(leftmost-match semantics of `String.prototype.match`). -/
def scanFirst (f : List Char → Option (List Char)) : List Char → Option (List Char)
  | [] => none
  | l@(_ :: rest) => (f l).orElse fun _ => scanFirst f rest

/-- Match attempt for `/score[:\s]*([0-9.]+)/i` at one position. -/
def scorePatternAt (l : List Char) : Option (List Char) :=
  if (l.take 5).map Char.toLower = "score".data then
    let cap := ((l.drop 5).dropWhile isScoreSep).takeWhile isDigitDot
    if cap.isEmpty then none else some cap
  else none

/-- Match attempt for `/([0-9.]+)\s*\/\s*D/` at one position, for a literal
denominator `denom` (`10` and `1` in the code). -/
def fractionPatternAt (denom : List Char) (l : List Char) : Option (List Char) :=
  let cap := l.takeWhile isDigitDot
  if cap.isEmpty then none
  else
    match (l.drop cap.length).dropWhile isWsChar with
    | '/' :: rest => if denom.isPrefixOf (rest.dropWhile isWsChar) then some cap else none
    | _ => none

/-- `/^([0-9.]+)/m`: the first line beginning with a digit-or-dot run. -/
def lineStartNumberPattern (l : List Char) : Option (List Char) :=
  (splitOnChar '\n' l).findSome? fun line =>
    let cap := line.takeWhile isDigitDot
    if cap.isEmpty then none else some cap

/-- The four `scorePatterns` of `parseJudgment`, tried in order; the capture
of the first pattern that matches anywhere. -/
def firstScoreCapture (response : String) : Option (List Char) :=
  ((scanFirst scorePatternAt response.data).orElse fun _ =>
    (scanFirst (fractionPatternAt "10".data) response.data).orElse fun _ =>
      (scanFirst (fractionPatternAt "1".data) response.data).orElse fun _ =>
        lineStartNumberPattern response.data)

/-- Digit run to a natural number. -/
def digitsToNat (ds : List Char) : ℕ :=
  ds.foldl (fun n c => 10 * n + (c.toNat - 48)) 0

/-- JS `parseFloat` restricted to captures drawn from `[0-9.]+`: the longest
valid numeric prefix, `none` (NaN) when there is none (e.g. `"."`). -/
def parseFloatDigitsDots (cap : List Char) : Option ℚ :=
  match cap with
  | '.' :: rest =>
    let frac := rest.takeWhile Char.isDigit
    if frac.isEmpty then none
    else some ((digitsToNat frac : ℚ) / ((10 : ℚ) ^ frac.length))
  | _ =>
    let intPart := cap.takeWhile Char.isDigit
    if intPart.isEmpty then none
    else
      match cap.drop intPart.length with
      | '.' :: rest2 =>
        let frac := rest2.takeWhile Char.isDigit
        some ((digitsToNat intPart : ℚ) + (digitsToNat frac : ℚ) / ((10 : ℚ) ^ frac.length))
      | _ => some (digitsToNat intPart : ℚ)

/-- The score computed by `parseJudgment`: `none` models float NaN (a parsed
NaN fails the `> 1` test and then propagates through `Math.min`/`Math.max`). -/
def parseScore (response : String) : Option ℚ :=
  match firstScoreCapture response with
  | none => some 0
  | some cap =>
    match parseFloatDigitsDots cap with
    | none => none
    | some parsed => some (clamp01 (if 1 < parsed then parsed / 10 else parsed))

/-- Match attempt for `/reasoning[:\s]*(.*)/is` at one position: everything
after the separators, to the end of the string (`s` flag). -/
def reasoningPatternAt (l : List Char) : Option (List Char) :=
  if (l.take 9).map Char.toLower = "reasoning".data then
    some ((l.drop 9).dropWhile isScoreSep)
  else none

/-- The reasoning text extracted by `parseJudgment`. -/
def parseReasoning (response : String) : String :=
  match scanFirst reasoningPatternAt response.data with
  | some captured => ⟨trimChars captured⟩
  | none =>
    let lines := splitOnChar '\n' (trimChars response.data)
    if lines.length > 1 then ⟨trimChars (List.intercalate ['\n'] (lines.drop 1))⟩
    else response

/-- `JudgmentResult`; `score = none` models float NaN. -/
structure JudgmentResult where
  score : Option ℚ
  reasoning : String
deriving DecidableEq, Repr

/-- `parseJudgment`. -/
def parseJudgment (response : String) : JudgmentResult :=
  { score := parseScore response, reasoning := parseReasoning response }

theorem jsMin_eq_min (a b : ℚ) : jsMin a b = min a b := by
  rw [jsMin, min_def]

theorem clamp01_range (x : ℚ) : 0 ≤ clamp01 x ∧ clamp01 x ≤ 1 := by
  rw [clamp01, jsMax_eq_max, jsMin_eq_min]
  exact ⟨le_max_left 0 _, max_le zero_le_one (min_le_left 1 x)⟩

/-- Claim C6's range assertion as stated: parsing always returns a numeric
score in `[0, 1]`. -/
def ClaimC6 : Prop :=
  ∀ response : String, ∃ q : ℚ, parseScore response = some q ∧ 0 ≤ q ∧ q ≤ 1

unseal Rat.mul Rat.inv Rat.add Rat.sub in
/-- C6 counterexample: on the response `"Score: ."` the first pattern
captures `"."`, `parseFloat` returns NaN, `NaN > 1` is false and
`Math.max(0, Math.min(1, NaN))` is NaN — the returned score (modelled
`none`) does not lie in `[0, 1]`. -/
theorem parseScore_claim_counterexample :
    ¬ ClaimC6 ∧ parseScore "Score: ." = none := by
  refine ⟨fun h => ?_, by decide⟩
  obtain ⟨q, hq, -⟩ := h "Score: ."
  have : parseScore "Score: ." = none := by decide
  rw [this] at hq
  cases hq

/-- C6 amended: the patterns are tried in the stated order with `/10`
normalization of values above `1`, and whenever parsing produces a numeric
score (every case except a dots-only capture, which yields NaN) that score
lies in `[0, 1]`; in particular a response matching no pattern scores `0`. -/
theorem parseScore_amended (response : String) (q : ℚ)
    (h : parseScore response = some q) :
    (0 ≤ q ∧ q ≤ 1) ∧ (firstScoreCapture response = none → q = 0) := by
  rw [parseScore] at h
  rcases hcap : firstScoreCapture response with - | cap
  · rw [hcap] at h
    dsimp only at h
    obtain rfl : (0 : ℚ) = q := Option.some.inj h
    exact ⟨⟨le_refl 0, zero_le_one⟩, fun _ => rfl⟩
  · rw [hcap] at h
    dsimp only at h
    rcases hpf : parseFloatDigitsDots cap with - | parsed
    · rw [hpf] at h
      cases h
    · rw [hpf] at h
      dsimp only at h
      obtain rfl := (Option.some.inj h).symm
      exact ⟨clamp01_range _, fun hnone => by cases hnone⟩

unseal Rat.mul Rat.inv Rat.add Rat.sub in
/-- Witness for the amended C6: `"Score: 0.8"` parses to `4/5 ∈ [0, 1]`. -/
theorem parseScore_amended_witness :
    parseScore "Score: 0.8" = some (4/5) ∧
    ((0 ≤ (4/5 : ℚ) ∧ (4/5 : ℚ) ≤ 1) ∧
      (firstScoreCapture "Score: 0.8" = none → (4/5 : ℚ) = 0)) :=
  ⟨by decide, parseScore_amended "Score: 0.8" (4/5) (by decide)⟩

/-! ## Generation judge error degradation (`src/core/llm-judge.ts`,
`evaluateFaithfulness` / `evaluateRelevancy` / `evaluateCorrectness`)

Each method builds a prompt, awaits `chatCompletion` and parses the reply;
the entire body sits in `try { … } catch (error) { return { score: 0,
reasoning: `Evaluation failed: ${error}` } }`.  The network call is modelled
by its outcome: `.ok reply` for a successful chat completion, `.error e` for
a rejected/thrown one with stringified error text `e`. -/

/-- `evaluateFaithfulness`. -/
def evaluateFaithfulness (chatOutcome : Except String String) : JudgmentResult :=
  match chatOutcome with
  | .ok response => parseJudgment response
  | .error e => { score := some 0, reasoning := "Evaluation failed: " ++ e }

/-- `evaluateRelevancy` (identical error handling, different prompt). -/
def evaluateRelevancy (chatOutcome : Except String String) : JudgmentResult :=
  match chatOutcome with
  | .ok response => parseJudgment response
  | .error e => { score := some 0, reasoning := "Evaluation failed: " ++ e }

/-- `evaluateCorrectness` (identical error handling, different prompt). -/
def evaluateCorrectness (chatOutcome : Except String String) : JudgmentResult :=
  match chatOutcome with
  | .ok response => parseJudgment response
  | .error e => { score := some 0, reasoning := "Evaluation failed: " ++ e }

/-- C7: when the chat-completion call fails, each of the three generation
judges returns `score = 0` with the error text as reasoning (it returns a
value rather than propagating the exception), and when the call succeeds but
the reply matches no score pattern the parsed score falls back to `0`. -/
theorem judge_failure_degrades (e response : String)
    (hparse : firstScoreCapture response = none) :
    evaluateFaithfulness (.error e) =
      { score := some 0, reasoning := "Evaluation failed: " ++ e } ∧
    evaluateRelevancy (.error e) =
      { score := some 0, reasoning := "Evaluation failed: " ++ e } ∧
    evaluateCorrectness (.error e) =
      { score := some 0, reasoning := "Evaluation failed: " ++ e } ∧
    (evaluateFaithfulness (.ok response)).score = some 0 := by
  refine ⟨rfl, rfl, rfl, ?_⟩
  show (parseJudgment response).score = some 0
  rw [parseJudgment]
  show parseScore response = some 0
  rw [parseScore, hparse]

/-- Witness for C7 at a concrete error text and a reply that matches no
score pattern. -/
theorem judge_failure_degrades_witness :
    firstScoreCapture "I cannot judge this answer" = none ∧
    (evaluateFaithfulness (.error "fetch failed") =
        { score := some 0, reasoning := "Evaluation failed: fetch failed" } ∧
      evaluateRelevancy (.error "fetch failed") =
        { score := some 0, reasoning := "Evaluation failed: fetch failed" } ∧
      evaluateCorrectness (.error "fetch failed") =
        { score := some 0, reasoning := "Evaluation failed: fetch failed" } ∧
      (evaluateFaithfulness (.ok "I cannot judge this answer")).score = some 0) :=
  ⟨by decide, judge_failure_degrades "fetch failed" _ (by decide)⟩

/-! ## Structured-query filter sanitization (`src/core/structured-query.ts`) -/

/-- JSON/JS values as they occur in a parsed LLM reply.  `nan` stands for the
non-finite numbers (`NaN`, `±Infinity`), which `Number.isFinite` rejects. -/
inductive JSValue where
  | str (s : String)
  | num (q : ℚ)
  | nan
  | boolean (b : Bool)
  | null
  | arr (elems : List JSValue)
  | obj (fields : List (String × JSValue))

/-- `String(v)` for a finite number.  Integers print in decimal like JS; the
non-integer rendering is a stand-in (none of the theorems depend on it). -/
def jsNumToString (q : ℚ) : String :=
  if q.den = 1 then toString q.num else toString q.num ++ "/" ++ toString q.den

/-- JS object assignment `out[k] = v`: replace the value if the key exists,
else append the key. -/
def upsert (out : List (String × String)) (k v : String) : List (String × String) :=
  if out.any (fun p => p.1 = k) then
    out.map fun p => if p.1 = k then (k, v) else p
  else out ++ [(k, v)]

/-- The whitelisted filter keys ("the keys we actually index today"). -/
def allowedFilterKeys : List String := ["season", "team", "doc_id"]

/-- One iteration of the `sanitizeFilter` entry loop: a string value is kept
trimmed when nonempty after trimming, a finite number is kept stringified,
everything else is skipped. -/
def sanitizeStep (out : List (String × String)) (kv : String × JSValue) :
    List (String × String) :=
  match kv.2 with
  | .str s => if trimChars s.data ≠ [] then upsert out kv.1 ⟨trimChars s.data⟩ else out
  | .num q => upsert out kv.1 (jsNumToString q)
  | _ => out

/-- The `for (const [k, v] of Object.entries(filter))` loop of
`sanitizeFilter`. -/
def sanitizeEntries (entries : List (String × JSValue)) : List (String × String) :=
  entries.foldl sanitizeStep []

/-- `Object.entries(v)` for the values that pass the `typeof === 'object'`
guard; array indices become string keys as in JS. -/
def jsObjectEntries : JSValue → List (String × JSValue)
  | .obj fields => fields
  | .arr elems => (elems.enum).map fun ei => (toString ei.1, ei.2)
  | _ => []

/-- `sanitizeFilter`: non-objects (and `null`) give `{}`; otherwise keep
string/finite-number entries and then delete every key outside the
whitelist. -/
def sanitizeFilter (filter : JSValue) : List (String × String) :=
  match filter with
  | .obj fields =>
    (sanitizeEntries fields).filter fun p => decide (p.1 ∈ allowedFilterKeys)
  | .arr elems =>
    (sanitizeEntries (jsObjectEntries (.arr elems))).filter fun p =>
      decide (p.1 ∈ allowedFilterKeys)
  | _ => []

/-- How a sanitized output value relates to the input value it came from:
either a string kept trimmed, or a finite number stringified. -/
def keptEntry (v : JSValue) (s : String) : Prop :=
  (∃ s0, v = .str s0 ∧ trimChars s0.data ≠ [] ∧ s = ⟨trimChars s0.data⟩) ∨
  (∃ q, v = .num q ∧ s = jsNumToString q)

theorem upsert_mem (out : List (String × String)) (k v : String) :
    ∀ p ∈ upsert out k v, p ∈ out ∨ p = (k, v) := by
  intro p hp
  rw [upsert] at hp
  split at hp
  · rcases List.mem_map.mp hp with ⟨r, hr, hrp⟩
    by_cases hk : r.1 = k
    · rw [if_pos hk] at hrp
      exact Or.inr hrp.symm
    · rw [if_neg hk] at hrp
      exact Or.inl (hrp ▸ hr)
  · rcases List.mem_append.mp hp with h | h
    · exact Or.inl h
    · exact Or.inr (List.mem_singleton.mp h)

theorem sanitizeStep_mem (out : List (String × String)) (kv : String × JSValue) :
    ∀ p ∈ sanitizeStep out kv, p ∈ out ∨ (p.1 = kv.1 ∧ keptEntry kv.2 p.2) := by
  intro p hp
  rw [sanitizeStep] at hp
  rcases hkv : kv.2 with s | q | _ | _ | _ | _ | _
  all_goals rw [hkv] at hp
  all_goals dsimp only at hp
  · by_cases hne : trimChars s.data ≠ []
    · rw [if_pos hne] at hp
      rcases upsert_mem out kv.1 ⟨trimChars s.data⟩ p hp with h | h
      · exact Or.inl h
      · right
        rw [h]
        exact ⟨rfl, Or.inl ⟨s, rfl, hne, rfl⟩⟩
    · rw [if_neg hne] at hp
      exact Or.inl hp
  · rcases upsert_mem out kv.1 (jsNumToString q) p hp with h | h
    · exact Or.inl h
    · right
      rw [h]
      exact ⟨rfl, Or.inr ⟨q, rfl, rfl⟩⟩
  all_goals exact Or.inl hp

theorem foldl_sanitizeStep_mem (entries : List (String × JSValue)) :
    ∀ (acc : List (String × String)), ∀ p ∈ entries.foldl sanitizeStep acc,
      p ∈ acc ∨ ∃ v, (p.1, v) ∈ entries ∧ keptEntry v p.2 := by
  induction entries with
  | nil =>
    intro acc p hp
    exact Or.inl hp
  | cons kv rest ih =>
    intro acc p hp
    rw [List.foldl_cons] at hp
    rcases ih (sanitizeStep acc kv) p hp with hmem | ⟨v, hv, hgood⟩
    · rcases sanitizeStep_mem acc kv p hmem with h | ⟨hk, hgood⟩
      · exact Or.inl h
      · right
        refine ⟨kv.2, ?_, hgood⟩
        rw [hk]
        exact List.mem_cons_self _ _
    · exact Or.inr ⟨v, List.mem_cons_of_mem _ hv, hgood⟩

/-- C9: every entry of the sanitized filter has one of the whitelisted keys
`season`, `team`, `doc_id` and stems from an input entry whose value was a
string (kept trimmed, when nonempty after trimming) or a finite number
(stringified); entries of any other value type, entries under any other key,
and non-object filters are dropped, so the returned filter maps the three
keys to strings only. -/
theorem sanitizeFilter_sound (filter : JSValue) (k s : String)
    (hmem : (k, s) ∈ sanitizeFilter filter) :
    k ∈ allowedFilterKeys ∧
      ∃ v, (k, v) ∈ jsObjectEntries filter ∧ keptEntry v s := by
  have main : ∀ entries : List (String × JSValue),
      (k, s) ∈ ((sanitizeEntries entries).filter fun p =>
        decide (p.1 ∈ allowedFilterKeys)) →
      k ∈ allowedFilterKeys ∧ ∃ v, (k, v) ∈ entries ∧ keptEntry v s := by
    intro entries h
    obtain ⟨h1, h2⟩ := List.mem_filter.mp h
    refine ⟨by simpa using h2, ?_⟩
    rcases foldl_sanitizeStep_mem entries [] (k, s) h1 with habs | ⟨v, hv, hgood⟩
    · cases habs
    · exact ⟨v, hv, hgood⟩
  cases filter with
  | obj fields => exact main fields hmem
  | arr elems => exact main (jsObjectEntries (.arr elems)) hmem
  | str s0 => cases hmem
  | num q => cases hmem
  | nan => cases hmem
  | boolean b => cases hmem
  | null => cases hmem

unseal Rat.mul Rat.inv Rat.add Rat.sub in
/-- Witness for C9: a filter mixing a padded string, a finite number, a
non-whitelisted key and non-string/number values sanitizes to exactly the
`season` and `team` entries; the theorem applies to the kept `season`
entry. -/
theorem sanitizeFilter_sound_witness :
    sanitizeFilter (.obj [("season", .str " 2024 "), ("team", .num 254),
        ("junk", .str "x"), ("doc_id", .boolean true), ("other", .nan)]) =
      [("season", "2024"), ("team", "254")] ∧
    ("season" ∈ allowedFilterKeys ∧
      ∃ v, ("season", v) ∈ jsObjectEntries (.obj [("season", .str " 2024 "),
          ("team", .num 254), ("junk", .str "x"), ("doc_id", .boolean true),
          ("other", .nan)]) ∧ keptEntry v "2024") :=
  ⟨by decide, sanitizeFilter_sound _ "season" "2024" (by decide)⟩

/-! ## Generation-metric aggregation (`src/core/llm-judge.ts`,
`aggregateGenerationMetrics`) -/

/-- `GenerationMetrics` (scores as finite rationals; the free-text
`judgmentDetails` field is not read by any aggregation and is omitted). -/
structure GenerationMetrics where
  faithfulness : ℚ
  answerRelevancy : ℚ
  answerCorrectness : Option ℚ := none
deriving DecidableEq, Repr

/-- The aggregate record returned by `aggregateGenerationMetrics`
(`avgCorrectness` is omitted — `none` — when no entry defines it). -/
structure AggGeneration where
  avgFaithfulness : ℚ
  avgRelevancy : ℚ
  avgCorrectness : Option ℚ := none
deriving DecidableEq, Repr

/-- The accumulator of the `results.reduce` call. -/
structure GenAccumulator where
  faithfulness : ℚ
  relevancy : ℚ
  correctness : ℚ
  correctnessCount : ℕ
deriving DecidableEq, Repr

/-- One `reduce` step: `correctness` adds `answerCorrectness ?? 0`,
`correctnessCount` counts the entries where it is defined. -/
def genReduceStep (acc : GenAccumulator) (r : GenerationMetrics) : GenAccumulator :=
  { faithfulness := acc.faithfulness + r.faithfulness
    relevancy := acc.relevancy + r.answerRelevancy
    correctness := acc.correctness + r.answerCorrectness.getD 0
    correctnessCount :=
      acc.correctnessCount + if r.answerCorrectness.isSome then 1 else 0 }

/-- `aggregateGenerationMetrics`. -/
def aggregateGenerationMetrics (results : List GenerationMetrics) : AggGeneration :=
  if results.length = 0 then { avgFaithfulness := 0, avgRelevancy := 0 }
  else
    let sum := results.foldl genReduceStep ⟨0, 0, 0, 0⟩
    { avgFaithfulness := sum.faithfulness / (results.length : ℚ)
      avgRelevancy := sum.relevancy / (results.length : ℚ)
      avgCorrectness :=
        if sum.correctnessCount > 0 then
          some (sum.correctness / (sum.correctnessCount : ℚ))
        else none }

theorem genReduceStep_foldl (results : List GenerationMetrics) :
    ∀ acc : GenAccumulator, results.foldl genReduceStep acc =
      { faithfulness := acc.faithfulness + (results.map (·.faithfulness)).sum
        relevancy := acc.relevancy + (results.map (·.answerRelevancy)).sum
        correctness := acc.correctness + (results.filterMap (·.answerCorrectness)).sum
        correctnessCount :=
          acc.correctnessCount + (results.filterMap (·.answerCorrectness)).length } := by
  induction results with
  | nil =>
    intro acc
    simp
  | cons r rest ih =>
    intro acc
    rw [List.foldl_cons, ih]
    rcases hc : r.answerCorrectness with _ | c
    all_goals
      simp [genReduceStep, hc, List.filterMap_cons, add_assoc, add_comm, add_left_comm]

/-- C10: a non-empty batch averages faithfulness and relevancy over all
entries, while `avgCorrectness` is the sum of the defined `answerCorrectness`
values divided by the number of entries that define one (not the batch
size), and is omitted (`none`) when no entry defines it; the empty batch
returns zero averages with no `avgCorrectness`. -/
theorem aggregateGenerationMetrics_spec (results : List GenerationMetrics) :
    (results = [] →
      aggregateGenerationMetrics results =
        { avgFaithfulness := 0, avgRelevancy := 0, avgCorrectness := none }) ∧
    (results ≠ [] →
      aggregateGenerationMetrics results =
        { avgFaithfulness := (results.map (·.faithfulness)).sum / (results.length : ℚ)
          avgRelevancy := (results.map (·.answerRelevancy)).sum / (results.length : ℚ)
          avgCorrectness :=
            if (results.filterMap (·.answerCorrectness)).length = 0 then none
            else some ((results.filterMap (·.answerCorrectness)).sum /
              ((results.filterMap (·.answerCorrectness)).length : ℚ)) }) := by
  constructor
  · rintro rfl
    rfl
  · intro hne
    have hlen : results.length ≠ 0 := fun h => hne (List.length_eq_zero.mp h)
    rw [aggregateGenerationMetrics, if_neg hlen]
    simp only [genReduceStep_foldl, zero_add]
    rcases Nat.eq_zero_or_pos (results.filterMap (·.answerCorrectness)).length with h0 | h0
    · simp [h0]
    · rw [if_pos h0, if_neg (Nat.pos_iff_ne_zero.mp h0)]

unseal Rat.mul Rat.inv Rat.add Rat.sub in
/-- Witness for C10: with one of two entries defining `answerCorrectness`,
the correctness average divides by `1` (the defined count), not `2` (the
batch size). -/
theorem aggregateGenerationMetrics_spec_witness :
    ([⟨1, 1/2, some (3/4)⟩, ⟨0, 1, none⟩] : List GenerationMetrics) ≠ [] ∧
    aggregateGenerationMetrics [⟨1, 1/2, some (3/4)⟩, ⟨0, 1, none⟩] =
      { avgFaithfulness :=
          (([⟨1, 1/2, some (3/4)⟩, ⟨0, 1, none⟩] : List GenerationMetrics).map
            (·.faithfulness)).sum /
            ((([⟨1, 1/2, some (3/4)⟩, ⟨0, 1, none⟩] : List GenerationMetrics).length : ℚ))
        avgRelevancy :=
          (([⟨1, 1/2, some (3/4)⟩, ⟨0, 1, none⟩] : List GenerationMetrics).map
            (·.answerRelevancy)).sum /
            ((([⟨1, 1/2, some (3/4)⟩, ⟨0, 1, none⟩] : List GenerationMetrics).length : ℚ))
        avgCorrectness :=
          if (([⟨1, 1/2, some (3/4)⟩, ⟨0, 1, none⟩] : List GenerationMetrics).filterMap
              (·.answerCorrectness)).length = 0 then none
          else some ((([⟨1, 1/2, some (3/4)⟩, ⟨0, 1, none⟩] : List GenerationMetrics).filterMap
              (·.answerCorrectness)).sum /
            ((([⟨1, 1/2, some (3/4)⟩, ⟨0, 1, none⟩] : List GenerationMetrics).filterMap
              (·.answerCorrectness)).length : ℚ)) } :=
  ⟨by decide, (aggregateGenerationMetrics_spec _).2 (by decide)⟩

/-! ## Unified response shape and the text subprocess client
(`src/integrations/text-chroma-direct.ts`)

The Python bridge call is modelled by its observable outcome: the process
exit code, its stdout/stderr text, and the result of `JSON.parse` on the
stdout (`.ok` a `JSValue`, `.error` the parser's message — nonempty for real
`SyntaxError`s).  The response cache is not modelled (`enableCache` defaults
to `false` and the cache is advisory). -/

/-- `RetrievedImage` (only presence/absence of images matters to the
evaluation core). -/
structure RetrievedImage where
  filename : String
  filePath : String
deriving DecidableEq, Repr

/-- The `metadata` object of a `RAGResponse`.  `contextSources` and
`postProcessingApplied` are blind TS casts of raw JSON fields, so they keep
the raw value. -/
structure RAGMetadata where
  error : Option String := none
  contextSources : Option JSValue := none
  postProcessingApplied : Option JSValue := none

/-- `RAGResponse`. -/
structure RAGResponse where
  query : String
  enhancedQuery : Option JSValue := none
  response : String
  documents : List RetrievedDocument
  images : List RetrievedImage
  retrievalTimeMs : ℚ
  generationTimeMs : Option ℚ := none
  metadata : Option RAGMetadata := none

/-- JS truthiness of a value. -/
def jsTruthy : JSValue → Bool
  | .str s => s ≠ ""
  | .num q => q ≠ 0
  | .nan => false
  | .boolean b => b
  | .null => false
  | .arr _ => true
  | .obj _ => true

/-- `String(v)` on the scalar values the bridge produces (stringification of
nested arrays/objects is not needed by any claim and is approximated). -/
def jsToString : JSValue → String
  | .str s => s
  | .num q => jsNumToString q
  | .nan => "NaN"
  | .boolean b => if b then "true" else "false"
  | .null => "null"
  | .arr _ => ""
  | .obj _ => "[object Object]"

/-- Property lookup `v[key]` on a parsed JSON object (`JSON.parse` keeps the
last duplicate key). -/
def JSValue.getField (v : JSValue) (key : String) : Option JSValue :=
  match v with
  | .obj fields => ((fields.filter fun p => p.1 = key).getLast?).map (·.2)
  | _ => none

/-- The JS expression `a || fallback` for an optional field access. -/
def jsOr (v : Option JSValue) (fallback : JSValue) : JSValue :=
  match v with
  | some x => if jsTruthy x then x else fallback
  | none => fallback

/-- The error-shaped `RAGResponse` returned by the text client's `catch`
block: empty but structurally valid, with the message in `metadata.error`. -/
def textErrorResponse (queryText msg : String) (retrievalTimeMs : ℚ) : RAGResponse :=
  { query := queryText
    response := ""
    documents := []
    images := []
    retrievalTimeMs := retrievalTimeMs
    metadata := some { error := some msg } }

/-- `TextChromaDirectClient.transformResponse`: `context_parts` (preferred)
or `documents` become ranked `RetrievedDocument`s; note that the metadata it
builds has no `error` field, whatever the raw payload contained. -/
def textTransformResponse (queryText : String) (raw : JSValue)
    (retrievalTimeMs : ℚ) : RAGResponse :=
  let contextParts : Option (List JSValue) :=
    match raw.getField "context_parts" with
    | some (.arr l) => some l
    | _ => none
  let rawDocs : Option (List JSValue) :=
    match raw.getField "documents" with
    | some (.arr l) => some l
    | _ => none
  let documents : List RetrievedDocument :=
    match contextParts with
    | some (p :: ps) =>
      ((p :: ps).enum).map fun ei =>
        { content := jsToString ei.2, rank := ei.1 }
    | _ =>
      match rawDocs with
      | some (d :: ds) =>
        ((d :: ds).enum).map fun ei =>
          { content := jsToString (jsOr (ei.2.getField "page_content")
              (jsOr (ei.2.getField "content") (.str ""))), rank := ei.1 }
      | _ => []
  { query := queryText
    enhancedQuery := raw.getField "enhanced_query"
    response := ""
    documents := documents
    images := []
    retrievalTimeMs := retrievalTimeMs
    metadata := some { contextSources := raw.getField "context_sources"
                       postProcessingApplied := raw.getField "post_processing_applied" } }

/-- `TextChromaDirectClient.query`: a non-zero exit code throws
`Text query script failed (code): stderr || stdout` and a `JSON.parse`
failure throws its own message; both are caught and become
`textErrorResponse`.  A zero-exit well-formed payload goes to
`transformResponse` unconditionally. -/
def textChromaQuery (queryText : String) (exitCode : ℕ) (stdout stderr : String)
    (parsed : Except String JSValue) (retrievalTimeMs : ℚ) : RAGResponse :=
  if exitCode ≠ 0 then
    textErrorResponse queryText
      ("Text query script failed (" ++ toString exitCode ++ "): " ++
        (if stderr ≠ "" then stderr else stdout))
      retrievalTimeMs
  else
    match parsed with
    | .error e => textErrorResponse queryText e retrievalTimeMs
    | .ok raw => textTransformResponse queryText raw retrievalTimeMs

/-! ## Evaluation orchestrator (`src/core/evaluator.ts`)

The per-query retrieval call, the LLM judge and the clock are oracles
indexed by the running operation count.  `enableImageMetrics` is `false`
(its default) in every configuration the claims concern, so `QueryMetrics`
carries no image entry.  The optional structured-query rewrite only changes
what is sent to the retrieval client, which the response oracle absorbs. -/

/-- `TestCase` (the optional descriptive fields are not read by the
orchestrator). -/
structure TestCase where
  id : String
  query : String
  groundTruth : GroundTruth
deriving DecidableEq, Repr

/-- `EvaluationDataset` (fields the orchestrator reads). -/
structure EvaluationDataset where
  id : String
  name : String
  testCases : List TestCase
deriving DecidableEq, Repr

/-- The configuration fields that steer the orchestrator's control flow. -/
structure EvalConfig where
  kValues : List ℕ
  enableGenerationMetrics : Bool := true
deriving DecidableEq, Repr

/-- `QueryMetrics` restricted to the claims' scope (see section comment). -/
structure QueryMetrics where
  retrieval : RetrievalMetrics
  generation : Option GenerationMetrics := none
deriving DecidableEq, Repr

/-- `SingleQueryResult` (the wall-clock `timestamp` string is omitted). -/
structure SingleQueryResult where
  testCaseId : String
  query : String
  ragResponse : RAGResponse
  metrics : QueryMetrics
  durationMs : ℚ
  error : Option String := none

/-- The zero-valued retrieval metrics synthesized for a failed query
(`evaluateSingleQuery`'s catch block). -/
def zeroRetrievalMetrics (k : ℕ) : RetrievalMetrics :=
  { precisionAtK := 0, recallAtK := 0, hitRateAtK := false, mrr := 0, ndcg := 0,
    f1AtK := 0, k := k, documentsRetrieved := 0 }

/-- JS falsiness of an optional string (`undefined` and `""` are falsy):
the truthiness tests `if (ragResponse.metadata?.error)` and
`results.filter(r => !r.error)`. -/
def strOptFalsy : Option String → Bool
  | none => true
  | some s => s = ""

/-- `Evaluator.evaluateSingleQuery`, given the retrieval client's response
and the generation-judge outcome (`none` when the judge returns `null`,
throws, or generation metrics are off). -/
def evaluateSingleQuery (w : ℕ → ℚ) (cfg : EvalConfig) (judgeAvailable : Bool)
    (genOutcome : Option GenerationMetrics) (tc : TestCase) (k : ℕ)
    (ragResponse : RAGResponse) (durationMs : ℚ) : SingleQueryResult :=
  let normalResult : SingleQueryResult :=
    { testCaseId := tc.id
      query := tc.query
      ragResponse := ragResponse
      metrics :=
        { retrieval := calculateRetrievalMetrics w ragResponse.documents tc.groundTruth k
          generation :=
            if cfg.enableGenerationMetrics && judgeAvailable then genOutcome else none }
      durationMs := durationMs
      error := none }
  match ragResponse.metadata.bind (·.error) with
  | some e =>
    if e ≠ "" then
      -- `throw new Error(ragResponse.metadata.error)`, caught below in the
      -- same function: zero metrics plus the error message.
      { testCaseId := tc.id
        query := tc.query
        ragResponse :=
          { query := tc.query, response := "", documents := [], images := [],
            retrievalTimeMs := 0 }
        metrics := { retrieval := zeroRetrievalMetrics k }
        durationMs := durationMs
        error := some e }
    else normalResult
  | none => normalResult

/-- The aggregate of `aggregateRetrievalMetrics`. -/
structure AggRetrieval where
  avgPrecision : ℚ
  avgRecall : ℚ
  avgF1 : ℚ
  avgMRR : ℚ
  avgNDCG : ℚ
  hitRate : ℚ
deriving DecidableEq, Repr

/-- Accumulator of the `reduce` in `aggregateRetrievalMetrics`
(`recall` is a Mathlib keyword, hence the `Sum` suffixes). -/
structure RetAccumulator where
  precisionSum : ℚ
  recallSum : ℚ
  f1Sum : ℚ
  mrrSum : ℚ
  ndcgSum : ℚ
  hits : ℕ
deriving DecidableEq, Repr

/-- One `reduce` step of `aggregateRetrievalMetrics`. -/
def retReduceStep (acc : RetAccumulator) (r : RetrievalMetrics) : RetAccumulator :=
  { precisionSum := acc.precisionSum + r.precisionAtK
    recallSum := acc.recallSum + r.recallAtK
    f1Sum := acc.f1Sum + r.f1AtK
    mrrSum := acc.mrrSum + r.mrr
    ndcgSum := acc.ndcgSum + r.ndcg
    hits := acc.hits + if r.hitRateAtK then 1 else 0 }

/-- `aggregateRetrievalMetrics`. -/
def aggregateRetrievalMetrics (results : List RetrievalMetrics) : AggRetrieval :=
  if results.length = 0 then
    { avgPrecision := 0, avgRecall := 0, avgF1 := 0, avgMRR := 0, avgNDCG := 0,
      hitRate := 0 }
  else
    let sum := results.foldl retReduceStep ⟨0, 0, 0, 0, 0, 0⟩
    { avgPrecision := sum.precisionSum / (results.length : ℚ)
      avgRecall := sum.recallSum / (results.length : ℚ)
      avgF1 := sum.f1Sum / (results.length : ℚ)
      avgMRR := sum.mrrSum / (results.length : ℚ)
      avgNDCG := sum.ndcgSum / (results.length : ℚ)
      hitRate := (sum.hits : ℚ) / (results.length : ℚ) }

/-- The `performance` block of `AggregateMetrics`. -/
structure AggPerformance where
  avgRetrievalTimeMs : ℚ
  avgGenerationTimeMs : ℚ
  avgTotalTimeMs : ℚ

/-- `AggregateMetrics` (image aggregation out of the claims' scope, see the
section comment). -/
structure AggregateMetrics where
  retrieval : AggRetrieval
  generation : Option AggGeneration := none
  performance : AggPerformance

/-- `Evaluator.aggregateMetricsForK`: aggregates only over results without a
(truthy) error. -/
def aggregateMetricsForK (results : List SingleQueryResult) : AggregateMetrics :=
  let validResults := results.filter fun r => strOptFalsy r.error
  let retrievalMetrics := validResults.map (·.metrics.retrieval)
  let generationMetrics := validResults.filterMap (·.metrics.generation)
  let n := validResults.length
  { retrieval := aggregateRetrievalMetrics retrievalMetrics
    generation :=
      if generationMetrics.length > 0 then
        some (aggregateGenerationMetrics generationMetrics)
      else none
    performance :=
      { avgRetrievalTimeMs :=
          if n > 0 then
            (validResults.foldl (fun s r => s + r.ragResponse.retrievalTimeMs) 0) / (n : ℚ)
          else 0
        avgGenerationTimeMs :=
          if n > 0 then
            (validResults.foldl (fun s r => s + (r.ragResponse.generationTimeMs.getD 0)) 0) /
              (n : ℚ)
          else 0
        avgTotalTimeMs :=
          if n > 0 then
            (validResults.foldl (fun s r => s + r.durationMs) 0) / (n : ℚ)
          else 0 } }

/-- `EvaluationProgress.status` values. -/
inductive ProgressStatus where
  | running
  | completed
  | failed
deriving DecidableEq, Repr

/-- `EvaluationProgress`, one `onProgress` callback payload. -/
structure EvaluationProgress where
  completed : ℕ
  total : ℕ
  currentQuery : Option String := none
  currentK : Option ℕ := none
  status : ProgressStatus
  error : Option String := none
deriving DecidableEq, Repr

/-- `testCase.query.substring(0, 50) + '...'`. -/
def truncateQuery (q : String) : String := ⟨q.data.take 50⟩ ++ "..."

/-- The run's summary block. -/
structure RunSummary where
  totalQueries : ℕ
  successfulQueries : ℕ
  failedQueries : ℕ
  totalDurationMs : ℚ

/-- How `evaluateDataset` ends: a finalized result, or a thrown error
(cancellation is a thrown `'Evaluation cancelled'`), which discards all
local results and aggregates. -/
inductive RunOutcome where
  | completed (results : List SingleQueryResult)
      (aggregateMetrics : List (ℕ × AggregateMetrics)) (summary : RunSummary)
  | failed (message : String)

/-- The external world of one run, indexed by the operation counter. -/
structure RunOracles where
  ragResponse : ℕ → RAGResponse
  generation : ℕ → Option GenerationMetrics
  duration : ℕ → ℚ

/-- Mutable state threaded through the two loops of `evaluateDataset`;
`reports` records the `onProgress` calls in order. -/
structure RunState where
  completedOperations : ℕ
  allResults : List SingleQueryResult
  aggregateMetrics : List (ℕ × AggregateMetrics)
  reports : List EvaluationProgress

/-- Cooperative cancellation: the abort flag was requested after
`m` completed queries, so it is observed set at the top of any iteration
with `completedOperations ≥ m` (`none`: never cancelled). -/
def cancelObserved (cancelAt : Option ℕ) (completed : ℕ) : Bool :=
  match cancelAt with
  | some m => m ≤ completed
  | none => false

/-- The inner `for (const testCase of dataset.testCases)` loop: abort check,
progress report, query evaluation.  `.error st` models the thrown
`'Evaluation cancelled'` escaping with the side effects so far. -/
def runTestCases (w : ℕ → ℚ) (cfg : EvalConfig) (judgeAvailable : Bool)
    (oracles : RunOracles) (total : ℕ) (cancelAt : Option ℕ) (k : ℕ) :
    List TestCase → RunState → List SingleQueryResult →
    Except RunState (RunState × List SingleQueryResult)
  | [], st, kResults => .ok (st, kResults)
  | tc :: rest, st, kResults =>
    if cancelObserved cancelAt st.completedOperations then .error st
    else
      let report : EvaluationProgress :=
        { completed := st.completedOperations
          total := total
          currentQuery := some (truncateQuery tc.query)
          currentK := some k
          status := .running }
      let result := evaluateSingleQuery w cfg judgeAvailable
        (oracles.generation st.completedOperations) tc k
        (oracles.ragResponse st.completedOperations)
        (oracles.duration st.completedOperations)
      runTestCases w cfg judgeAvailable oracles total cancelAt k rest
        { completedOperations := st.completedOperations + 1
          allResults := st.allResults ++ [result]
          aggregateMetrics := st.aggregateMetrics
          reports := st.reports ++ [report] }
        (kResults ++ [result])

/-- The outer `for (const k of this.config.kValues)` loop; after each inner
loop the aggregate for that K is appended. -/
def runKValues (w : ℕ → ℚ) (cfg : EvalConfig) (judgeAvailable : Bool)
    (oracles : RunOracles) (dataset : EvaluationDataset) (total : ℕ)
    (cancelAt : Option ℕ) : List ℕ → RunState → Except RunState RunState
  | [], st => .ok st
  | k :: ks, st =>
    match runTestCases w cfg judgeAvailable oracles total cancelAt k
        dataset.testCases st [] with
    | .error st2 => .error st2
    | .ok (st2, kResults) =>
      runKValues w cfg judgeAvailable oracles dataset total cancelAt ks
        { st2 with
          aggregateMetrics := st2.aggregateMetrics ++ [(k, aggregateMetricsForK kResults)] }

/-- `Evaluator.evaluateDataset`: the outcome together with the emitted
progress reports.  On success a final `completed` report; on a thrown
cancellation the `catch` reports `failed` with the message and rethrows,
discarding results and aggregates. -/
def evaluateDataset (w : ℕ → ℚ) (cfg : EvalConfig) (judgeAvailable : Bool)
    (oracles : RunOracles) (cancelAt : Option ℕ) (dataset : EvaluationDataset) :
    RunOutcome × List EvaluationProgress :=
  let total := dataset.testCases.length * cfg.kValues.length
  match runKValues w cfg judgeAvailable oracles dataset total cancelAt
      cfg.kValues ⟨0, [], [], []⟩ with
  | .ok st =>
    (.completed st.allResults st.aggregateMetrics
      { totalQueries := st.allResults.length
        successfulQueries := (st.allResults.filter fun r => strOptFalsy r.error).length
        failedQueries := (st.allResults.filter fun r => !strOptFalsy r.error).length
        totalDurationMs := st.allResults.foldl (fun s r => s + r.durationMs) 0 },
     st.reports ++
       [{ completed := total, total := total, status := .completed }])
  | .error st =>
    (.failed "Evaluation cancelled",
     st.reports ++
       [{ completed := st.completedOperations, total := total, status := .failed,
          error := some "Evaluation cancelled" }])

/-! ## The run/cancel API state machine (`src/api/evaluation.ts`)

`POST /start` stores a status record (`pending`, then `running` when the
background task starts).  `POST /:id/cancel` calls `evaluator.cancel()` and
assigns `status = 'cancelled'`.  The background task's `catch` then assigns
`status = 'failed'` with the thrown message when `evaluateDataset` rethrows
the cancellation; its success path assigns `'completed'`.  The status
history below lists these assignments in program order; the record the
dashboard polls holds the last one. -/

/-- `EvaluationStatus.status` values. -/
inductive ApiRunStatus where
  | pending
  | running
  | completed
  | failed
  | cancelled
deriving DecidableEq, Repr

/-- The sequence of assignments to `status.status` for one run:
`pending` (start route), `running` (background task begins), `cancelled`
(the cancel route, when invoked mid-run), and finally the background task's
own terminal assignment. -/
def runStatusHistory (outcome : RunOutcome) (cancelInvokedMidRun : Bool) :
    List ApiRunStatus :=
  [.pending, .running] ++
    (if cancelInvokedMidRun then [.cancelled] else []) ++
    [match outcome with
      | .completed _ _ _ => .completed
      | .failed _ => .failed]

/-- The status the dashboard observes once the background task has finished:
the last assignment wins. -/
def finalRunStatus (outcome : RunOutcome) : ApiRunStatus :=
  match outcome with
  | .completed _ _ _ => .completed
  | .failed _ => .failed

/-! ## Progress-trace characterization (claim C8) -/

/-- Spec-side wording of the per-K progress reports: one report per test
case, emitted *before* that query runs, carrying the completed-so-far count,
the truncated query text and the current K. -/
def specKReports (k total : ℕ) : ℕ → List TestCase → List EvaluationProgress
  | _, [] => []
  | completedSoFar, tc :: rest =>
    { completed := completedSoFar
      total := total
      currentQuery := some (truncateQuery tc.query)
      currentK := some k
      status := .running } :: specKReports k total (completedSoFar + 1) rest

/-- Spec-side wording of the whole run's running-reports, over the K values
in order. -/
def specRunReports (total : ℕ) (testCases : List TestCase) :
    ℕ → List ℕ → List EvaluationProgress
  | _, [] => []
  | completedSoFar, k :: ks =>
    specKReports k total completedSoFar testCases ++
      specRunReports total testCases (completedSoFar + testCases.length) ks

/-- The complete progress trace of an uncancelled run: the per-query
running-reports followed by one final `completed` report that carries no
query text or K. -/
def specProgressTrace (cfg : EvalConfig) (dataset : EvaluationDataset) :
    List EvaluationProgress :=
  specRunReports (dataset.testCases.length * cfg.kValues.length)
      dataset.testCases 0 cfg.kValues ++
    [{ completed := dataset.testCases.length * cfg.kValues.length
       total := dataset.testCases.length * cfg.kValues.length
       status := .completed }]

theorem runTestCases_none_ok (w : ℕ → ℚ) (cfg : EvalConfig) (judgeAvailable : Bool)
    (oracles : RunOracles) (total : ℕ) (k : ℕ) (testCases : List TestCase) :
    ∀ (st : RunState) (kResults : List SingleQueryResult),
      ∃ st2 kResults2,
        runTestCases w cfg judgeAvailable oracles total none k testCases st kResults =
          .ok (st2, kResults2) ∧
        st2.reports = st.reports ++ specKReports k total st.completedOperations testCases ∧
        st2.completedOperations = st.completedOperations + testCases.length ∧
        st2.aggregateMetrics = st.aggregateMetrics := by
  induction testCases with
  | nil =>
    intro st kResults
    exact ⟨st, kResults, rfl, by simp [specKReports], rfl, rfl⟩
  | cons tc rest ih =>
    intro st kResults
    rw [runTestCases]
    have hc : cancelObserved none st.completedOperations = false := rfl
    rw [hc]
    simp only [Bool.false_eq_true, if_false]
    obtain ⟨st2, kResults2, hrun, hreports, hcompleted, hagg⟩ :=
      ih { completedOperations := st.completedOperations + 1
           allResults := st.allResults ++
             [evaluateSingleQuery w cfg judgeAvailable
               (oracles.generation st.completedOperations) tc k
               (oracles.ragResponse st.completedOperations)
               (oracles.duration st.completedOperations)]
           aggregateMetrics := st.aggregateMetrics
           reports := st.reports ++
             [{ completed := st.completedOperations, total := total,
                currentQuery := some (truncateQuery tc.query), currentK := some k,
                status := .running }] }
        (kResults ++
          [evaluateSingleQuery w cfg judgeAvailable
            (oracles.generation st.completedOperations) tc k
            (oracles.ragResponse st.completedOperations)
            (oracles.duration st.completedOperations)])
    refine ⟨st2, kResults2, hrun, ?_, ?_, hagg⟩
    · rw [hreports]
      simp [specKReports]
    · rw [hcompleted]
      simp only [List.length_cons]
      omega

theorem runKValues_none_ok (w : ℕ → ℚ) (cfg : EvalConfig) (judgeAvailable : Bool)
    (oracles : RunOracles) (dataset : EvaluationDataset) (total : ℕ)
    (ks : List ℕ) :
    ∀ st : RunState, ∃ st2 : RunState,
      runKValues w cfg judgeAvailable oracles dataset total none ks st = .ok st2 ∧
      st2.reports = st.reports ++
        specRunReports total dataset.testCases st.completedOperations ks := by
  induction ks with
  | nil =>
    intro st
    exact ⟨st, rfl, by simp [specRunReports]⟩
  | cons k rest ih =>
    intro st
    rw [runKValues]
    obtain ⟨st2, kResults2, hrun, hreports, hcompleted, -⟩ :=
      runTestCases_none_ok w cfg judgeAvailable oracles total k dataset.testCases st []
    rw [hrun]
    obtain ⟨st3, hrun3, hreports3⟩ :=
      ih { st2 with
           aggregateMetrics := st2.aggregateMetrics ++ [(k, aggregateMetricsForK kResults2)] }
    refine ⟨st3, hrun3, ?_⟩
    rw [hreports3]
    simp only [specRunReports]
    rw [hreports, hcompleted, List.append_assoc]

/-- An uncancelled run always finishes: `runKValues` returns `.ok`. -/
theorem evaluateDataset_none_completes (w : ℕ → ℚ) (cfg : EvalConfig)
    (judgeAvailable : Bool) (oracles : RunOracles) (dataset : EvaluationDataset) :
    ∃ results aggs summary,
      (evaluateDataset w cfg judgeAvailable oracles none dataset).1 =
        .completed results aggs summary := by
  rw [evaluateDataset]
  obtain ⟨st2, hrun, -⟩ :=
    runKValues_none_ok w cfg judgeAvailable oracles dataset
      (dataset.testCases.length * cfg.kValues.length) cfg.kValues ⟨0, [], [], []⟩
  rw [hrun]
  exact ⟨_, _, _, rfl⟩

/-- C8 amended: in an uncancelled run the orchestrator reports progress
*before* every single query — each such report carrying the completed-so-far
count, the truncated current query text and the current K — and once more
at the end with `completed = total` and no query text or K; no report is
emitted after an individual query. -/
theorem evaluateDataset_trace (w : ℕ → ℚ) (cfg : EvalConfig)
    (judgeAvailable : Bool) (oracles : RunOracles) (dataset : EvaluationDataset) :
    (evaluateDataset w cfg judgeAvailable oracles none dataset).2 =
      specProgressTrace cfg dataset := by
  rw [evaluateDataset, specProgressTrace]
  obtain ⟨st2, hrun, hreports⟩ :=
    runKValues_none_ok w cfg judgeAvailable oracles dataset
      (dataset.testCases.length * cfg.kValues.length) cfg.kValues ⟨0, [], [], []⟩
  rw [hrun]
  simp only
  rw [hreports]
  simp

/-- Claim C8 as stated: after every single query (so with the count
*including* that query) a report carries the completed count, the current
query text and the current K value. -/
def ClaimC8 : Prop :=
  ∀ (w : ℕ → ℚ) (cfg : EvalConfig) (judgeAvailable : Bool) (oracles : RunOracles)
    (dataset : EvaluationDataset),
    ∀ i < dataset.testCases.length * cfg.kValues.length,
      ∃ r ∈ (evaluateDataset w cfg judgeAvailable oracles none dataset).2,
        r.completed = i + 1 ∧ r.currentQuery.isSome ∧ r.currentK.isSome

/-- A dataset with a single test case, for the C8 counterexample. -/
def c8Dataset : EvaluationDataset :=
  { id := "d", name := "d",
    testCases := [{ id := "t1", query := "q", groundTruth := { expectedKeywords := [] } }] }

/-- `kValues = [5]`, generation metrics off. -/
def c8Config : EvalConfig := { kValues := [5], enableGenerationMetrics := false }

/-- A retrieval world that always answers with an empty, successful
response. -/
def trivialOracles : RunOracles :=
  { ragResponse := fun _ =>
      { query := "q", response := "", documents := [], images := [], retrievalTimeMs := 0 }
    generation := fun _ => none
    duration := fun _ => 0 }

unseal Rat.mul Rat.inv Rat.add Rat.sub List.merge List.mergeSort in
/-- C8 counterexample: in a one-query run the trace is
`[⟨completed 0, query text, K⟩, ⟨completed 1, no text, no K⟩]` — no report
emitted after the query carries both the post-query completed count and the
query text/K, so progress is reported before each query, not after. -/
theorem progress_after_query_counterexample : ¬ ClaimC8 := by
  intro h
  obtain ⟨r, hr, h1, h2, h3⟩ :=
    h unitWeight c8Config false trivialOracles c8Dataset 0 (by decide)
  have htrace : (evaluateDataset unitWeight c8Config false trivialOracles none
      c8Dataset).2 =
      [{ completed := 0, total := 1, currentQuery := some "q...", currentK := some 5,
         status := .running },
       { completed := 1, total := 1, status := .completed }] := by decide
  rw [htrace] at hr
  rcases List.mem_cons.mp hr with rfl | hr2
  · cases h1
  · rcases List.mem_cons.mp hr2 with rfl | hr3
    · simp at h2
    · cases hr3

/-! ## Cancellation (claim C1) -/

/-- A ten-query dataset, for the C1 cancellation scenario. -/
def c1Dataset : EvaluationDataset :=
  { id := "ds", name := "ds",
    testCases := (List.range 10).map fun i =>
      { id := toString i, query := "q", groundTruth := { expectedKeywords := [] } } }

unseal Rat.mul Rat.inv Rat.add Rat.sub List.merge List.mergeSort in
/-- C1 at the spec's own scenario (cancel after 3 of 10 queries at K = 5):
the run aborts with the thrown `'Evaluation cancelled'`, so no
`AggregateMetrics[5]` is computed (a `.failed` outcome carries none) and the
last progress report says `completed = 3` — but the background task's catch
then assigns `status = 'failed'`, overwriting the `'cancelled'` set by the
cancel route, so the final observable status is `failed`, not `cancelled`. -/
theorem cancellation_scenario :
    (evaluateDataset unitWeight c8Config false trivialOracles (some 3) c1Dataset).1 =
      RunOutcome.failed "Evaluation cancelled" ∧
    (evaluateDataset unitWeight c8Config false trivialOracles (some 3) c1Dataset).2 =
      [{ completed := 0, total := 10, currentQuery := some "q...", currentK := some 5,
         status := .running },
       { completed := 1, total := 10, currentQuery := some "q...", currentK := some 5,
         status := .running },
       { completed := 2, total := 10, currentQuery := some "q...", currentK := some 5,
         status := .running },
       { completed := 3, total := 10, status := .failed,
         error := some "Evaluation cancelled" }] ∧
    runStatusHistory
        (evaluateDataset unitWeight c8Config false trivialOracles (some 3) c1Dataset).1
        true =
      [.pending, .running, .cancelled, .failed] ∧
    finalRunStatus
        (evaluateDataset unitWeight c8Config false trivialOracles (some 3) c1Dataset).1 =
      .failed ∧
    finalRunStatus
        (evaluateDataset unitWeight c8Config false trivialOracles (some 3) c1Dataset).1 ≠
      ApiRunStatus.cancelled :=
  ⟨rfl, by decide, by decide, rfl, by decide⟩

/-! ## Retrieval-failure degradation (claim C2) -/

theorem String.append_ne_empty_left (s t : String) (h : s ≠ "") : s ++ t ≠ "" := by
  intro heq
  apply h
  have hdata : s.data ++ t.data = [] := by
    have := congrArg String.data heq
    simpa using this
  have : s.data = [] := (List.append_eq_nil.mp hdata).1
  cases s
  simp_all

/-- `evaluateSingleQuery` on an error-shaped response takes its catch path:
zero retrieval metrics, no generation metrics, and the error message on the
result. -/
theorem evaluateSingleQuery_error (w : ℕ → ℚ) (cfg : EvalConfig)
    (judgeAvailable : Bool) (genOutcome : Option GenerationMetrics)
    (tc : TestCase) (k : ℕ) (queryText msg : String) (rt dur : ℚ)
    (hne : msg ≠ "") :
    evaluateSingleQuery w cfg judgeAvailable genOutcome tc k
        (textErrorResponse queryText msg rt) dur =
      { testCaseId := tc.id
        query := tc.query
        ragResponse :=
          { query := tc.query, response := "", documents := [], images := [],
            retrievalTimeMs := 0 }
        metrics := { retrieval := zeroRetrievalMetrics k }
        durationMs := dur
        error := some msg } := by
  rw [evaluateSingleQuery]
  have hbind : (textErrorResponse queryText msg rt).metadata.bind (fun m => m.error) =
      some msg := rfl
  rw [hbind]
  dsimp only
  rw [if_pos hne]

/-- Claim C2's client-side assertion as stated, covering all three failure
modes including a present `error` field in a zero-exit, well-formed
payload. -/
def ClaimC2 : Prop :=
  ∀ (queryText stdout stderr : String) (exitCode : ℕ)
    (parsed : Except String JSValue) (rt : ℚ),
    (exitCode ≠ 0 ∨ (∃ e, parsed = .error e ∧ e ≠ "") ∨
      (∃ raw e, parsed = .ok raw ∧ raw.getField "error" = some (.str e) ∧ e ≠ "")) →
    ∃ msg, (textChromaQuery queryText exitCode stdout stderr parsed rt).metadata.bind
        RAGMetadata.error = some msg

/-- C2 counterexample: on the payload `{error: "connection refused"}` with a
zero exit code, `transformResponse` never reads `raw.error`, so the client
returns a response with *no* `metadata.error`, and the orchestrator records
no per-query error (it scores the empty document list normally). -/
theorem text_error_field_counterexample :
    ¬ ClaimC2 ∧
    (textChromaQuery "q" 0 "" ""
        (.ok (.obj [("error", .str "connection refused")])) 7).metadata.bind
      RAGMetadata.error = none ∧
    (evaluateSingleQuery unitWeight c8Config false none
        { id := "t", query := "q", groundTruth := { expectedKeywords := [] } } 5
        (textChromaQuery "q" 0 "" ""
          (.ok (.obj [("error", .str "connection refused")])) 7) 0).error = none := by
  refine ⟨fun h => ?_, rfl, rfl⟩
  obtain ⟨msg, hmsg⟩ := h "q" "" "" 0
    (.ok (.obj [("error", .str "connection refused")])) 7
    (Or.inr (Or.inr ⟨.obj [("error", .str "connection refused")],
      "connection refused", rfl, rfl, by decide⟩))
  have hnone : (textChromaQuery "q" 0 "" ""
      (.ok (.obj [("error", .str "connection refused")])) 7).metadata.bind
      RAGMetadata.error = none := rfl
  rw [hnone] at hmsg
  cases hmsg

/-- C2 amended: for a retrieval backend call that fails with a non-zero exit
code or malformed JSON output, the text client returns an empty valid
`RAGResponse` carrying the (nonempty) error string in `metadata.error`
instead of throwing; the per-query result then carries all-zero retrieval
metrics, no generation metrics, and that error string; and any uncancelled
run still finishes with a `completed` outcome.  (A present `error` field in
a zero-exit well-formed payload is *not* surfaced by this client — see the
counterexample.) -/
theorem text_failure_degrades (queryText stdout stderr : String) (exitCode : ℕ)
    (parsed : Except String JSValue) (rt : ℚ) (w : ℕ → ℚ) (cfg : EvalConfig)
    (judgeAvailable : Bool) (genOutcome : Option GenerationMetrics)
    (tc : TestCase) (k : ℕ) (dur : ℚ)
    (hfail : exitCode ≠ 0 ∨ ∃ e, parsed = .error e ∧ e ≠ "") :
    ∃ msg, msg ≠ "" ∧
      textChromaQuery queryText exitCode stdout stderr parsed rt =
        textErrorResponse queryText msg rt ∧
      (evaluateSingleQuery w cfg judgeAvailable genOutcome tc k
          (textChromaQuery queryText exitCode stdout stderr parsed rt) dur).metrics =
        { retrieval := zeroRetrievalMetrics k, generation := none } ∧
      (evaluateSingleQuery w cfg judgeAvailable genOutcome tc k
          (textChromaQuery queryText exitCode stdout stderr parsed rt) dur).error =
        some msg ∧
      (∀ (oracles : RunOracles) (dataset : EvaluationDataset),
        ∃ results aggs summary,
          (evaluateDataset w cfg judgeAvailable oracles none dataset).1 =
            .completed results aggs summary) := by
  have completes := fun oracles dataset =>
    evaluateDataset_none_completes w cfg judgeAvailable oracles dataset
  by_cases hexit : exitCode ≠ 0
  · refine ⟨"Text query script failed (" ++ toString exitCode ++ "): " ++
      (if stderr ≠ "" then stderr else stdout), ?_, ?_, ?_, ?_, completes⟩
    · exact String.append_ne_empty_left _ _
        (String.append_ne_empty_left _ _
          (String.append_ne_empty_left _ _ (by decide)))
    · rw [textChromaQuery.eq_def, if_pos hexit]
    · rw [textChromaQuery.eq_def, if_pos hexit, evaluateSingleQuery_error]
      exact String.append_ne_empty_left _ _
        (String.append_ne_empty_left _ _
          (String.append_ne_empty_left _ _ (by decide)))
    · rw [textChromaQuery.eq_def, if_pos hexit, evaluateSingleQuery_error]
      exact String.append_ne_empty_left _ _
        (String.append_ne_empty_left _ _
          (String.append_ne_empty_left _ _ (by decide)))
  · rcases hfail with h | ⟨e, hpe, hne⟩
    · exact absurd h hexit
    · refine ⟨e, hne, ?_, ?_, ?_, completes⟩
      · rw [textChromaQuery.eq_def, if_neg hexit, hpe]
      · rw [textChromaQuery.eq_def, if_neg hexit, hpe]
        dsimp only
        rw [evaluateSingleQuery_error _ _ _ _ _ _ _ _ _ _ hne]
      · rw [textChromaQuery.eq_def, if_neg hexit, hpe]
        dsimp only
        rw [evaluateSingleQuery_error _ _ _ _ _ _ _ _ _ _ hne]

unseal Rat.mul Rat.inv Rat.add Rat.sub in
/-- Witness for the amended C2 at a concrete non-zero exit code. -/
theorem text_failure_degrades_witness :
    ((1 : ℕ) ≠ 0 ∨ ∃ e, (.ok .null : Except String JSValue) = .error e ∧ e ≠ "") ∧
    (∃ msg, msg ≠ "" ∧
      textChromaQuery "q" 1 "boom" "" (.ok .null) 2 =
        textErrorResponse "q" msg 2 ∧
      (evaluateSingleQuery unitWeight c8Config false none
          { id := "t", query := "q", groundTruth := { expectedKeywords := [] } } 5
          (textChromaQuery "q" 1 "boom" "" (.ok .null) 2) 0).metrics =
        { retrieval := zeroRetrievalMetrics 5, generation := none } ∧
      (evaluateSingleQuery unitWeight c8Config false none
          { id := "t", query := "q", groundTruth := { expectedKeywords := [] } } 5
          (textChromaQuery "q" 1 "boom" "" (.ok .null) 2) 0).error =
        some msg ∧
      (∀ (oracles : RunOracles) (dataset : EvaluationDataset),
        ∃ results aggs summary,
          (evaluateDataset unitWeight c8Config false oracles none dataset).1 =
            .completed results aggs summary)) :=
  ⟨Or.inl (by decide),
    text_failure_degrades "q" "boom" "" 1 (.ok .null) 2 unitWeight c8Config false none
      { id := "t", query := "q", groundTruth := { expectedKeywords := [] } } 5 0
      (Or.inl (by decide))⟩

end RagLab
